import Mathlib

/-!
Verification of the mtg-data-mining Scryfall client against its
specification.  The repository ships only the demo notebook
(`notebooks/demos/scryfall_client_demo.ipynb`), a caller of
`utils.api_clients.scryfall.client.ScryfallClient`; the client module itself
is not part of the provided sources, so its components (HTTP wrapper,
endpoint methods, response normalization) are modelled from the
specification and the behaviour visible in the notebook outputs.
-/

/-- Modelled from the spec: JSON values as returned by the upstream API
(section 3, Card Record: strings, numbers, nested objects/arrays, null). -/
inductive Json where
  | null
  | bool (b : Bool)
  | num (n : Int)
  | str (s : String)
  | arr (xs : List Json)
  | obj (fields : List (String × Json))

/-- Modelled from the spec: a Card Record is a flat mapping of field name to
value, passed through opaquely (section 3). -/
def Record : Type := List (String × Json)

/-- Modelled from the spec: the error taxonomy of section 7 (NetworkError,
UpstreamError with status and body, NotFoundError, FormatError), plus the
validation failure of section 4.2 for missing or malformed required
arguments. -/
inductive ClientError where
  | networkError
  | upstreamError (status : Nat) (body : Json)
  | notFoundError
  | formatError
  | validationError

/-- Modelled from the spec: the outcome of one network GET, as seen by the
missing HTTP Client Wrapper (`ScryfallClient`, not in the provided sources):
either the connection could not be established, or the server answered with
a status code and a JSON body. -/
inductive HttpResult where
  | noConnection
  | response (status : Nat) (body : Json)

/-- Modelled from the spec: the HTTP Client Wrapper (section 4.1, missing
from the provided sources).  It returns the parsed JSON body on a 2xx
status, fails with NetworkError when the connection cannot be established,
and with UpstreamError carrying the status code and the body otherwise.  No
retries: the result is a pure function of the single network outcome. -/
def get_json (res : HttpResult) : Except ClientError Json :=
  match res with
  | HttpResult.noConnection => Except.error ClientError.networkError
  | HttpResult.response status body =>
      if 200 ≤ status ∧ status < 300 then Except.ok body
      else Except.error (ClientError.upstreamError status body)

/-- C3: the HTTP Client Wrapper fails with NetworkError when the connection
cannot be established, fails with UpstreamError carrying the HTTP status and
the response body on every non-2xx status, and returns the parsed JSON body
on a 2xx status. -/
theorem getJson_error_taxonomy (res : HttpResult) :
    (res = HttpResult.noConnection →
      get_json res = Except.error ClientError.networkError) ∧
    (∀ status body, res = HttpResult.response status body →
      ((200 ≤ status ∧ status < 300) → get_json res = Except.ok body) ∧
      (¬(200 ≤ status ∧ status < 300) →
        get_json res = Except.error (ClientError.upstreamError status body))) := by
  refine ⟨fun h => by rw [h]; rfl, fun status body h => ?_⟩
  subst h
  constructor
  · intro h2
    simp [get_json, h2]
  · intro h2
    simp [get_json, h2]

/-- C3 witness: a 404 response with body obj containing details surfaces as
UpstreamError with status 404 and that body attached, and a lost connection
surfaces as NetworkError. -/
theorem getJson_error_taxonomy_witness :
    get_json (HttpResult.response 404 (Json.obj [("details", Json.str "not found")]))
      = Except.error (ClientError.upstreamError 404
          (Json.obj [("details", Json.str "not found")])) ∧
    get_json HttpResult.noConnection = Except.error ClientError.networkError := by
  refine ⟨?_, ?_⟩
  · exact ((getJson_error_taxonomy _).2 404
      (Json.obj [("details", Json.str "not found")]) rfl).2 (by decide)
  · exact (getJson_error_taxonomy _).1 rfl

/-- Modelled from the spec: one cell of a Result Table.  A present field
keeps its JSON value as-is (nested objects/arrays stay opaque, section 4.3);
a field absent from the record is the tabular null marker, which the
notebook output renders as the pandas floating-point NaN. -/
inductive Cell where
  | val (v : Json)
  | nan

/-- Modelled from the spec: the Result Table of section 3 -- an ordered
sequence of Card Records rendered as rows with a shared column set. -/
structure Table where
  columns : List String
  rows : List (List Cell)

/-- Modelled from the spec: add one column name to the column set if it is
not already present, keeping first-appearance order. -/
def insertCol (cols : List String) (k : String) : List String :=
  if k ∈ cols then cols else cols ++ [k]

/-- Modelled from the spec: add a record's field names to the column set in
order. -/
def addKeys (cols : List String) : List String → List String
  | [] => cols
  | k :: ks => addKeys (insertCol cols k) ks

/-- Modelled from the spec: accumulate the shared column set over a sequence
of records, in order of first appearance. -/
def collectColsAux (acc : List String) : List Record → List String
  | [] => acc
  | r :: rest => collectColsAux (addKeys acc (r.map Prod.fst)) rest

/-- Modelled from the spec: the shared column set of a Result Table -- the
union of the records' field names in order of first appearance. -/
def collectCols (rs : List Record) : List String := collectColsAux [] rs

/-- Modelled from the spec: the cell a record contributes to a column --
its value when the field is present, the null marker otherwise
(section 4.3). -/
def cellFor (r : Record) (c : String) : Cell :=
  match r.lookup c with
  | some v => Cell.val v
  | none => Cell.nan

/-- Modelled from the spec: the row a record contributes to the table, one
cell per column. -/
def buildRow (cols : List String) (r : Record) : List Cell :=
  cols.map (cellFor r)

/-- Modelled from the spec: the Response Normalizer's core (section 4.3,
missing from the provided sources): one row per record over the shared
column set. -/
def normalizeRecords (rs : List Record) : Table :=
  { columns := collectCols rs, rows := rs.map (buildRow (collectCols rs)) }

/-- Modelled from the spec: read one cell of a Result Table by row index and
column name. -/
def tableCell (t : Table) (i : Nat) (c : String) : Option Cell :=
  match t.rows[i]? with
  | none => none
  | some row => (t.columns.zip row).lookup c

/-- Modelled from the spec: recognise a list whose elements are all JSON
objects and extract the records, in order; any non-object element makes the
input malformed. -/
def asRecords : List Json → Option (List Record)
  | [] => some []
  | Json.obj r :: rest =>
      match asRecords rest with
      | some rs => some (r :: rs)
      | none => none
  | _ :: _ => none

/-- Modelled from the spec: an input to the Response Normalizer is well
formed when it is one JSON object or a sequence of JSON objects
(section 4.3). -/
def wellFormedInput : Json → Bool
  | Json.obj _ => true
  | Json.arr xs => xs.all fun x => match x with | Json.obj _ => true | _ => false
  | _ => false

/-- Modelled from the spec: the Response Normalizer (section 4.3, missing
from the provided sources).  A pure function: one JSON object gives a
one-row table, a sequence of objects gives one row per object, and any
malformed input (a non-object element) signals a FormatError. -/
def json_normalize (j : Json) : Except ClientError Table :=
  match j with
  | Json.obj r => Except.ok (normalizeRecords [r])
  | Json.arr xs =>
      match asRecords xs with
      | some rs => Except.ok (normalizeRecords rs)
      | none => Except.error ClientError.formatError
  | _ => Except.error ClientError.formatError

/-- Modelled from the spec: one page of a paginated by-query response -- its
records and the pagination envelope's has-more-pages indicator
(sections 4.2 and 6; the client module is missing from the provided
sources). -/
structure Page where
  data : List Record
  has_more : Bool

/-- Modelled from the spec: the pagination loop of section 4.2 (missing from
the provided sources).  The list holds the successive page-fetch outcomes in
the order the client would request them; the client concatenates records in
arrival order, follows the has-more indicator until absent, and aborts on
the first failing fetch.  Requesting a page the server never supplies is a
transport failure. -/
def fetchAll : List (Except ClientError Page) → Except ClientError (List Record)
  | [] => Except.error ClientError.networkError
  | Except.error e :: _ => Except.error e
  | Except.ok p :: rest =>
      if p.has_more then
        match fetchAll rest with
        | Except.error e => Except.error e
        | Except.ok rs => Except.ok (p.data ++ rs)
      else Except.ok p.data

/-- Modelled from the spec: how many page requests the pagination loop
issues against the given fetch outcomes before stopping. -/
def requestCount : List (Except ClientError Page) → Nat
  | [] => 1
  | Except.error _ :: _ => 1
  | Except.ok p :: rest => if p.has_more then 1 + requestCount rest else 1

/-- Modelled from the spec: the by-query search endpoint method
(section 4.2, missing from the provided sources).  It validates that the
query string is non-empty before any network activity, then follows
pagination and normalizes the concatenated records into a Result Table.
The second component counts the HTTP requests issued. -/
def search_by_query (query : String)
    (responses : List (Except ClientError Page)) :
    Except ClientError Table × Nat :=
  if query.isEmpty then (Except.error ClientError.validationError, 0)
  else
    match fetchAll responses with
    | Except.error e => (Except.error e, requestCount responses)
    | Except.ok rs => (Except.ok (normalizeRecords rs), requestCount responses)

/-- Modelled from the spec: the candidate set a fuzzy name lookup resolves
to upstream -- no match, several equally good matches, or a unique best
match (section 4.2 and glossary). -/
inductive FuzzyOutcome where
  | noMatch
  | ambiguous
  | unique (r : Record)

/-- Modelled from the spec: the single-record result of a fuzzy lookup, as
the notebook consumes it through a to_dict conversion -- a wrapper keeping
the upstream card object's fields untouched. -/
structure Series where
  entries : List (String × Json)

/-- Modelled from the spec: convert the single-record result back to a flat
mapping of field name to value, nested values untouched. -/
def to_dict (s : Series) : Record := s.entries

/-- Modelled from the spec: the fuzzy search-by-name endpoint method
(section 4.2, missing from the provided sources).  It validates the required
argument, then returns the unique best match as a single record, or fails
with NotFoundError when zero or ambiguous matches exist.  The second
component counts the HTTP requests issued. -/
def search_by_name (fuzzy : String) (outcome : FuzzyOutcome) :
    Except ClientError Series × Nat :=
  if fuzzy.isEmpty then (Except.error ClientError.validationError, 0)
  else
    match outcome with
    | FuzzyOutcome.unique r => (Except.ok ⟨r⟩, 1)
    | _ => (Except.error ClientError.notFoundError, 1)

/-- Modelled from the spec: characters left untouched by URL encoding (the
unreserved set: ASCII letters, digits, hyphen, dot, underscore, tilde). -/
def isUnreserved (c : Char) : Bool :=
  c.isAlpha || c.isDigit || c == '-' || c == '.' || c == '_' || c == '~'

/-- Modelled from the spec: the hexadecimal digit character for a value
below sixteen. -/
def hexDigit (n : Nat) : Char :=
  if n < 10 then Char.ofNat (48 + n) else Char.ofNat (55 + n)

/-- Modelled from the spec: the numeric value of a hexadecimal digit
character. -/
def fromHexDigit (c : Char) : Nat :=
  if 48 ≤ c.toNat ∧ c.toNat ≤ 57 then c.toNat - 48
  else if 65 ≤ c.toNat ∧ c.toNat ≤ 70 then c.toNat - 55
  else 0

/-- Modelled from the spec: percent-encode one character -- unreserved
characters pass through, every other character becomes a percent escape of
its code. -/
def encodeChar (c : Char) : List Char :=
  if isUnreserved c then [c]
  else ['%', hexDigit (c.toNat / 16), hexDigit (c.toNat % 16)]

/-- Modelled from the spec: URL-encode a character sequence (section 6:
correct encoding of special characters in the query grammar; the client
module is missing from the provided sources). -/
def urlEncode : List Char → List Char
  | [] => []
  | c :: rest => encodeChar c ++ urlEncode rest

/-- Modelled from the spec: URL-decode a character sequence -- a percent
escape of two hexadecimal digits decodes to the escaped character,
everything else passes through. -/
def urlDecode : List Char → List Char
  | [] => []
  | '%' :: h1 :: h2 :: rest =>
      Char.ofNat (16 * fromHexDigit h1 + fromHexDigit h2) :: urlDecode rest
  | c :: rest => c :: urlDecode rest

/-- Modelled from the spec: the query component the by-query search method
places in the constructed request path for a query string. -/
def searchQueryComponent (q : String) : List Char := urlEncode q.data

theorem urlDecode_escape (h1 h2 : Char) (l : List Char) :
    urlDecode ('%' :: h1 :: h2 :: l)
      = Char.ofNat (16 * fromHexDigit h1 + fromHexDigit h2) :: urlDecode l := rfl

theorem urlDecode_cons_ne (c : Char) (l : List Char) (h : ¬ c = '%') :
    urlDecode (c :: l) = c :: urlDecode l := by
  rw [urlDecode.eq_def]
  split
  · rename_i heq; exact absurd heq (by simp)
  · rename_i d1 d2 tail heq
    injection heq with hc htail
    exact absurd hc h
  · rename_i c2 rest2 hno heq
    injection heq with hc htail
    rw [hc, htail]

theorem hexRound : ∀ m < 16, fromHexDigit (hexDigit m) = m := by decide

theorem unreserved_ne_percent {c : Char} (h : isUnreserved c = true) : ¬ c = '%' := by
  intro hEq
  rw [hEq] at h
  exact absurd h (by decide)

theorem decode_encode (s : List Char) (h : ∀ c ∈ s, c.toNat < 256) :
    urlDecode (urlEncode s) = s := by
  induction s with
  | nil => rfl
  | cons c rest ih =>
    have hc : c.toNat < 256 := h c (by simp)
    have hrest : ∀ x ∈ rest, x.toNat < 256 := fun x hx => h x (by simp [hx])
    by_cases hu : isUnreserved c = true
    · have hne : ¬ c = '%' := unreserved_ne_percent hu
      show urlDecode (encodeChar c ++ urlEncode rest) = c :: rest
      rw [encodeChar, if_pos hu, List.singleton_append, urlDecode_cons_ne c _ hne,
        ih hrest]
    · show urlDecode (encodeChar c ++ urlEncode rest) = c :: rest
      rw [encodeChar, if_neg hu]
      show urlDecode ('%' :: hexDigit (c.toNat / 16) :: hexDigit (c.toNat % 16)
        :: urlEncode rest) = c :: rest
      rw [urlDecode_escape, ih hrest,
        hexRound (c.toNat / 16) (by omega),
        hexRound (c.toNat % 16) (by omega),
        Nat.div_add_mod, Char.ofNat_toNat]

/-- C5: for every valid query string (single-byte characters), URL-decoding
the query component the by-query search method constructs yields the
original query again -- the encode-then-decode round trip is the
identity. -/
theorem searchQueryComponent_roundTrip (q : String)
    (h : ∀ c ∈ q.data, c.toNat < 256) :
    urlDecode (searchQueryComponent q) = q.data :=
  decode_encode q.data h

/-- C5 witness: the notebook's own query round-trips through the encoded
query component. -/
theorem searchQueryComponent_roundTrip_witness :
    urlDecode (searchQueryComponent "c:red pow:3") = "c:red pow:3".data :=
  searchQueryComponent_roundTrip "c:red pow:3" (by decide)

theorem fetchAll_ok (ps : List Page) (last : Page)
    (hmore : ∀ p ∈ ps, p.has_more = true) (hlast : last.has_more = false) :
    fetchAll ((ps ++ [last]).map Except.ok)
      = Except.ok (((ps ++ [last]).map Page.data).flatten) := by
  induction ps with
  | nil => simp [fetchAll, hlast]
  | cons p ps ih =>
      have hp : p.has_more = true := hmore p (by simp)
      have ih2 := ih (fun x hx => hmore x (by simp [hx]))
      simp only [List.map_append, List.map_cons, List.map_nil] at ih2 ⊢
      simp [fetchAll, hp, ih2]

theorem fetchAll_error (ps : List Page) (e : ClientError)
    (rest : List (Except ClientError Page))
    (hmore : ∀ p ∈ ps, p.has_more = true) :
    fetchAll (ps.map Except.ok ++ Except.error e :: rest) = Except.error e := by
  induction ps with
  | nil => simp [fetchAll]
  | cons p ps ih =>
      have hp : p.has_more = true := hmore p (by simp)
      have ih2 := ih (fun x hx => hmore x (by simp [hx]))
      simp [fetchAll, hp, ih2]

theorem normalizeRecords_length (rs : List Record) :
    (normalizeRecords rs).rows.length = rs.length := by
  simp [normalizeRecords]

/-- C1: a paginated by-query search over N pages, where every page but the
last signals more pages and the last does not, returns the Result Table of
exactly the concatenation of all pages' records in page order -- one row
per record, no duplicates, no omissions; with a single page whose
has-more indicator is false this is exactly the first page's records in
order. -/
theorem search_by_query_concatenates_pages (q : String) (hq : q.isEmpty = false)
    (ps : List Page) (last : Page)
    (hmore : ∀ p ∈ ps, p.has_more = true) (hlast : last.has_more = false) :
    (search_by_query q ((ps ++ [last]).map Except.ok)).fst
      = Except.ok (normalizeRecords (((ps ++ [last]).map Page.data).flatten)) ∧
    (normalizeRecords (((ps ++ [last]).map Page.data).flatten)).rows.length
      = (((ps ++ [last]).map Page.data).flatten).length := by
  refine ⟨?_, normalizeRecords_length _⟩
  have hf := fetchAll_ok ps last hmore hlast
  simp only [List.map_append, List.map_cons, List.map_nil] at hf ⊢
  simp [search_by_query, hq, hf]

/-- C1 witness: a two-page search concatenates both pages' records in page
order, and a single page with the has-more indicator false yields exactly
that page's records. -/
theorem search_by_query_concatenates_pages_witness :
    (search_by_query "c:red pow:3"
        [Except.ok ⟨[[("name", Json.str "a")]], true⟩,
         Except.ok ⟨[[("name", Json.str "b")]], false⟩]).fst
      = Except.ok (normalizeRecords [[("name", Json.str "a")], [("name", Json.str "b")]]) ∧
    (search_by_query "c:red pow:3"
        [Except.ok ⟨[[("name", Json.str "c")]], false⟩]).fst
      = Except.ok (normalizeRecords [[("name", Json.str "c")]]) := by
  constructor
  · exact (search_by_query_concatenates_pages "c:red pow:3" (by decide)
      [⟨[[("name", Json.str "a")]], true⟩] ⟨[[("name", Json.str "b")]], false⟩
      (by simp) rfl).1
  · exact (search_by_query_concatenates_pages "c:red pow:3" (by decide)
      [] ⟨[[("name", Json.str "c")]], false⟩ (by simp) rfl).1

/-- C4: when the fetch of some page fails after any run of successful pages,
the whole by-query aggregation aborts with the triggering error -- the
pages already accumulated are discarded and no partial Result Table is
returned. -/
theorem search_by_query_aborts_on_failed_page (q : String) (hq : q.isEmpty = false)
    (ps : List Page) (e : ClientError) (rest : List (Except ClientError Page))
    (hmore : ∀ p ∈ ps, p.has_more = true) :
    (search_by_query q (ps.map Except.ok ++ Except.error e :: rest)).fst
      = Except.error e := by
  simp [search_by_query, hq, fetchAll_error ps e rest hmore]

/-- C4 witness: a successful first page followed by a failing second fetch
surfaces the failure itself, with no partial table. -/
theorem search_by_query_aborts_on_failed_page_witness :
    (search_by_query "c:red pow:3"
        [Except.ok ⟨[[("name", Json.str "a")]], true⟩,
         Except.error ClientError.networkError]).fst
      = Except.error ClientError.networkError := by
  exact search_by_query_aborts_on_failed_page "c:red pow:3" (by decide)
    [⟨[[("name", Json.str "a")]], true⟩] ClientError.networkError [] (by simp)

/-- C2: a fuzzy name search with a non-empty argument fails with
NotFoundError whenever the candidate set is empty or ambiguous -- no empty
record is returned -- and returns exactly the one best-match record
otherwise. -/
theorem search_by_name_fails_on_no_match (f : String) (hf : f.isEmpty = false)
    (outcome : FuzzyOutcome) :
    ((outcome = FuzzyOutcome.noMatch ∨ outcome = FuzzyOutcome.ambiguous) →
      (search_by_name f outcome).fst = Except.error ClientError.notFoundError) ∧
    (∀ r, outcome = FuzzyOutcome.unique r →
      (search_by_name f outcome).fst = Except.ok ⟨r⟩) := by
  constructor
  · rintro (h | h) <;> subst h <;> simp [search_by_name, hf]
  · rintro r rfl
    simp [search_by_name, hf]

/-- C2 witness: the notebook's fuzzy text fails with NotFoundError on an
empty or ambiguous candidate set, and yields the single record on a unique
match. -/
theorem search_by_name_fails_on_no_match_witness :
    (search_by_name "jac bel" FuzzyOutcome.noMatch).fst
      = Except.error ClientError.notFoundError ∧
    (search_by_name "jac bel" FuzzyOutcome.ambiguous).fst
      = Except.error ClientError.notFoundError ∧
    (search_by_name "jac bel"
        (FuzzyOutcome.unique [("name", Json.str "Jace Beleren")])).fst
      = Except.ok ⟨[("name", Json.str "Jace Beleren")]⟩ := by
  refine ⟨?_, ?_, ?_⟩
  · exact (search_by_name_fails_on_no_match "jac bel" (by decide)
      FuzzyOutcome.noMatch).1 (Or.inl rfl)
  · exact (search_by_name_fails_on_no_match "jac bel" (by decide)
      FuzzyOutcome.ambiguous).1 (Or.inr rfl)
  · exact (search_by_name_fails_on_no_match "jac bel" (by decide)
      (FuzzyOutcome.unique [("name", Json.str "Jace Beleren")])).2 _ rfl

/-- C8: both endpoint methods validate their required argument before any
network activity -- called with an empty query or fuzzy string they fail
with the validation error and issue zero HTTP requests, whatever the
network would have answered. -/
theorem endpoint_methods_validate_arguments
    (responses : List (Except ClientError Page)) (outcome : FuzzyOutcome) :
    search_by_query "" responses = (Except.error ClientError.validationError, 0) ∧
    search_by_name "" outcome = (Except.error ClientError.validationError, 0) := by
  exact ⟨rfl, rfl⟩

/-- C10: a fuzzy search with a unique best match returns a single record --
not a Result Table -- whose to_dict conversion is exactly the upstream
card object's flat mapping, with nested structures preserved as nested
values. -/
theorem search_by_name_returns_single_flat_record (f : String) (r : Record)
    (hf : f.isEmpty = false) :
    (search_by_name f (FuzzyOutcome.unique r)).fst = Except.ok ⟨r⟩ ∧
    to_dict ⟨r⟩ = r ∧
    (∀ k v, r.lookup k = some v → (to_dict ⟨r⟩).lookup k = some v) := by
  refine ⟨by simp [search_by_name, hf], rfl, fun k v h => h⟩

/-- C10 witness: a card with nested legalities and prices objects comes back
as one record whose to_dict keeps the nested mapping intact. -/
theorem search_by_name_returns_single_flat_record_witness :
    (search_by_name "jac bel" (FuzzyOutcome.unique
        [("name", Json.str "Jace Beleren"),
         ("legalities", Json.obj [("commander", Json.str "legal")]),
         ("prices", Json.obj [("usd", Json.null)])])).fst
      = Except.ok ⟨[("name", Json.str "Jace Beleren"),
          ("legalities", Json.obj [("commander", Json.str "legal")]),
          ("prices", Json.obj [("usd", Json.null)])]⟩ ∧
    (to_dict ⟨[("name", Json.str "Jace Beleren"),
        ("legalities", Json.obj [("commander", Json.str "legal")]),
        ("prices", Json.obj [("usd", Json.null)])]⟩).lookup "legalities"
      = some (Json.obj [("commander", Json.str "legal")]) := by
  constructor
  · exact (search_by_name_returns_single_flat_record "jac bel" _ (by decide)).1
  · exact (search_by_name_returns_single_flat_record "jac bel"
      [("name", Json.str "Jace Beleren"),
       ("legalities", Json.obj [("commander", Json.str "legal")]),
       ("prices", Json.obj [("usd", Json.null)])] (by decide)).2.2
      "legalities" (Json.obj [("commander", Json.str "legal")]) rfl

theorem zip_map_lookup (cols : List String) (f : String → Cell) (c : String)
    (hc : c ∈ cols) :
    (cols.zip (cols.map f)).lookup c = some (f c) := by
  induction cols with
  | nil => simp at hc
  | cons a as ih =>
      by_cases hca : c = a
      · subst hca
        show List.lookup c ((c, f c) :: as.zip (as.map f)) = some (f c)
        simp [List.lookup_cons]
      · rcases List.mem_cons.mp hc with rfl | hmem
        · exact absurd rfl hca
        · show List.lookup c ((a, f a) :: as.zip (as.map f)) = some (f c)
          rw [List.lookup_cons, show (c == a) = false from beq_false_of_ne hca]
          exact ih hmem

theorem lookup_mem_keys (r : List (String × Json)) (k : String) (v : Json)
    (h : r.lookup k = some v) : k ∈ r.map Prod.fst := by
  induction r with
  | nil => simp [List.lookup] at h
  | cons p rest ih =>
      rw [List.lookup] at h
      by_cases hk : k = p.1
      · simp [hk]
      · rw [show (k == p.1) = false from beq_false_of_ne hk] at h
        simp [ih h]

theorem mem_insertCol_self (cols : List String) (k : String) :
    k ∈ insertCol cols k := by
  unfold insertCol
  split
  · assumption
  · simp

theorem mem_insertCol_of_mem (cols : List String) (k c : String)
    (h : c ∈ cols) : c ∈ insertCol cols k := by
  unfold insertCol
  split
  · exact h
  · simp [h]

theorem mem_addKeys_of_mem (ks : List String) (cols : List String) (c : String)
    (h : c ∈ cols) : c ∈ addKeys cols ks := by
  induction ks generalizing cols with
  | nil => exact h
  | cons k ks ih => exact ih _ (mem_insertCol_of_mem cols k c h)

theorem mem_addKeys_self (ks : List String) (cols : List String) (k : String)
    (h : k ∈ ks) : k ∈ addKeys cols ks := by
  induction ks generalizing cols with
  | nil => simp at h
  | cons a as ih =>
      rcases List.mem_cons.mp h with rfl | hmem
      · exact mem_addKeys_of_mem as _ _ (mem_insertCol_self cols k)
      · exact ih _ hmem

theorem mem_collectColsAux_of_mem (rs : List Record) (acc : List String)
    (c : String) (h : c ∈ acc) : c ∈ collectColsAux acc rs := by
  induction rs generalizing acc with
  | nil => exact h
  | cons r rest ih =>
      exact ih _ (mem_addKeys_of_mem _ _ _ h)

theorem key_mem_collectColsAux (rs : List Record) (acc : List String)
    (r : Record) (k : String) (hr : r ∈ rs) (hk : k ∈ r.map Prod.fst) :
    k ∈ collectColsAux acc rs := by
  induction rs generalizing acc with
  | nil => simp at hr
  | cons s rest ih =>
      rcases List.mem_cons.mp hr with rfl | hmem
      · exact mem_collectColsAux_of_mem rest _ k (mem_addKeys_self _ _ _ hk)
      · exact ih _ hmem

theorem key_mem_collectCols (rs : List Record) (r : Record) (k : String)
    (v : Json) (hr : r ∈ rs) (h : r.lookup k = some v) :
    k ∈ collectCols rs :=
  key_mem_collectColsAux rs [] r k hr (lookup_mem_keys r k v h)

theorem tableCell_normalizeRecords (rs : List Record) (i : Nat) (r : Record)
    (hi : rs[i]? = some r) (c : String) (hc : c ∈ collectCols rs) :
    tableCell (normalizeRecords rs) i c = some (cellFor r c) := by
  unfold tableCell normalizeRecords
  simp only [List.getElem?_map, hi, Option.map_some]
  exact zip_map_lookup (collectCols rs) (cellFor r) c hc

theorem asRecords_map_obj (rs : List Record) :
    asRecords (rs.map Json.obj) = some rs := by
  induction rs with
  | nil => rfl
  | cons r rest ih => simp [asRecords, ih]

/-- C6: the Response Normalizer turns a sequence of JSON objects into a
Result Table with exactly one row per object; every field of a record
appears as a column and its cell keeps the JSON value as-is (nested
objects and arrays included, no deep flattening), and every column a
record lacks holds the null marker in that record's row. -/
theorem json_normalize_one_row_per_object (rs : List Record) (i : Nat)
    (r : Record) (hi : rs[i]? = some r) :
    json_normalize (Json.arr (rs.map Json.obj)) = Except.ok (normalizeRecords rs) ∧
    (normalizeRecords rs).rows.length = rs.length ∧
    (∀ k v, r.lookup k = some v →
      k ∈ (normalizeRecords rs).columns ∧
      tableCell (normalizeRecords rs) i k = some (Cell.val v)) ∧
    (∀ k, k ∈ (normalizeRecords rs).columns → r.lookup k = none →
      tableCell (normalizeRecords rs) i k = some Cell.nan) := by
  have hrmem : r ∈ rs := List.getElem?_mem hi
  refine ⟨by simp [json_normalize, asRecords_map_obj],
    normalizeRecords_length rs, ?_, ?_⟩
  · intro k v hkv
    have hc : k ∈ collectCols rs := key_mem_collectCols rs r k v hrmem hkv
    refine ⟨hc, ?_⟩
    rw [tableCell_normalizeRecords rs i r hi k hc]
    simp [cellFor, hkv]
  · intro k hk hnone
    rw [tableCell_normalizeRecords rs i r hi k hk]
    simp [cellFor, hnone]

/-- C6 witness: three objects of which the middle one lacks a field the
other two have give a three-row table with the null marker in that
object's row for the missing column, and the value as-is elsewhere. -/
theorem json_normalize_one_row_per_object_witness :
    json_normalize (Json.arr ([[("name", Json.str "A"), ("power", Json.str "3")],
        [("name", Json.str "B")],
        [("name", Json.str "C"), ("power", Json.str "1")]].map Json.obj))
      = Except.ok (normalizeRecords [[("name", Json.str "A"), ("power", Json.str "3")],
          [("name", Json.str "B")],
          [("name", Json.str "C"), ("power", Json.str "1")]]) ∧
    (normalizeRecords [[("name", Json.str "A"), ("power", Json.str "3")],
        [("name", Json.str "B")],
        [("name", Json.str "C"), ("power", Json.str "1")]]).rows.length = 3 ∧
    tableCell (normalizeRecords [[("name", Json.str "A"), ("power", Json.str "3")],
        [("name", Json.str "B")],
        [("name", Json.str "C"), ("power", Json.str "1")]]) 1 "power"
      = some Cell.nan ∧
    tableCell (normalizeRecords [[("name", Json.str "A"), ("power", Json.str "3")],
        [("name", Json.str "B")],
        [("name", Json.str "C"), ("power", Json.str "1")]]) 0 "power"
      = some (Cell.val (Json.str "3")) := by
  refine ⟨?_, ?_, ?_, ?_⟩
  · exact (json_normalize_one_row_per_object _ 1 [("name", Json.str "B")] rfl).1
  · exact (json_normalize_one_row_per_object _ 1 [("name", Json.str "B")] rfl).2.1
  · exact (json_normalize_one_row_per_object _ 1 [("name", Json.str "B")] rfl).2.2.2
      "power" (by decide) rfl
  · exact ((json_normalize_one_row_per_object _ 0
      [("name", Json.str "A"), ("power", Json.str "3")] rfl).2.2.1
      "power" (Json.str "3") rfl).2

theorem asRecords_isSome (xs : List Json) :
    (asRecords xs).isSome
      = xs.all fun x => match x with | Json.obj _ => true | _ => false := by
  induction xs with
  | nil => rfl
  | cons x rest ih =>
      cases x with
      | obj r =>
          cases h : asRecords rest with
          | none => simp [asRecords, h, ← ih]
          | some rs => simp [asRecords, h, ← ih]
      | null => simp [asRecords]
      | bool b => simp [asRecords]
      | num n => simp [asRecords]
      | str s => simp [asRecords]
      | arr ys => simp [asRecords]

/-- C7: the Response Normalizer -- a pure function in this embedding, so
equal inputs give equal Result Tables by construction -- succeeds exactly
on well-formed input (one JSON object or a sequence of JSON objects) and
fails with FormatError on every malformed input (one containing a
non-object element). -/
theorem json_normalize_failure_characterization (j : Json) :
    ((∃ t, json_normalize j = Except.ok t) ↔ wellFormedInput j = true) ∧
    (wellFormedInput j = false →
      json_normalize j = Except.error ClientError.formatError) := by
  cases j with
  | obj r =>
      exact ⟨⟨fun _ => rfl, fun _ => ⟨normalizeRecords [r], rfl⟩⟩,
        fun h => by simp [wellFormedInput] at h⟩
  | arr xs =>
      have hwf : wellFormedInput (Json.arr xs) = (asRecords xs).isSome := by
        rw [asRecords_isSome]
        rfl
      cases h : asRecords xs with
      | none =>
          refine ⟨⟨?_, ?_⟩, ?_⟩
          · rintro ⟨t, ht⟩
            simp [json_normalize, h] at ht
          · intro htrue
            rw [hwf, h] at htrue
            simp at htrue
          · intro _
            simp [json_normalize, h]
      | some rs =>
          refine ⟨⟨fun _ => by rw [hwf, h]; rfl,
            fun _ => ⟨normalizeRecords rs, by simp [json_normalize, h]⟩⟩, ?_⟩
          intro hfalse
          rw [hwf, h] at hfalse
          simp at hfalse
  | null =>
      refine ⟨⟨?_, ?_⟩, fun _ => rfl⟩
      · rintro ⟨t, ht⟩
        cases ht
      · intro h
        exact Bool.noConfusion h
  | bool b =>
      refine ⟨⟨?_, ?_⟩, fun _ => rfl⟩
      · rintro ⟨t, ht⟩
        cases ht
      · intro h
        exact Bool.noConfusion h
  | num n =>
      refine ⟨⟨?_, ?_⟩, fun _ => rfl⟩
      · rintro ⟨t, ht⟩
        cases ht
      · intro h
        exact Bool.noConfusion h
  | str s =>
      refine ⟨⟨?_, ?_⟩, fun _ => rfl⟩
      · rintro ⟨t, ht⟩
        cases ht
      · intro h
        exact Bool.noConfusion h

/-- C7 witness: a list holding a non-object element signals FormatError. -/
theorem json_normalize_failure_characterization_witness :
    json_normalize (Json.arr [Json.obj [("name", Json.str "A")], Json.num 3])
      = Except.error ClientError.formatError := by
  exact (json_normalize_failure_characterization
    (Json.arr [Json.obj [("name", Json.str "A")], Json.num 3])).2 rfl

/-- C9: in a normalized Result Table, every row/column position whose
record lacks the column's field holds the distinguished NaN marker
(modelling the pandas floating-point missing-value marker), which is a
different value from JSON null (None) and from the empty string, and the
same marker is used whatever the column or the record. -/
theorem missing_field_is_nan_marker (rs : List Record) (i : Nat) (r : Record)
    (k : String) (hi : rs[i]? = some r)
    (hk : k ∈ (normalizeRecords rs).columns) (hmiss : r.lookup k = none) :
    tableCell (normalizeRecords rs) i k = some Cell.nan ∧
    Cell.nan ≠ Cell.val Json.null ∧
    Cell.nan ≠ Cell.val (Json.str "") := by
  refine ⟨?_, fun h => Cell.noConfusion h, fun h => Cell.noConfusion h⟩
  rw [tableCell_normalizeRecords rs i r hi k hk]
  simp [cellFor, hmiss]

/-- C9 witness: over records shaped like the notebook's (string column
mana_cost, array column colors, object-array column card_faces), the same
NaN marker fills the missing colors cell of one record and the missing
card_faces cell of another, and differs from null and the empty string. -/
theorem missing_field_is_nan_marker_witness :
    tableCell (normalizeRecords
        [[("name", Json.str "Asmo"), ("mana_cost", Json.str ""),
          ("colors", Json.arr [Json.str "B", Json.str "R"])],
         [("name", Json.str "Cinder Wall"), ("colors", Json.arr [Json.str "R"]),
          ("card_faces", Json.arr [Json.obj [("name", Json.str "x")]])],
         [("name", Json.str "Reckless Waif")]]) 2 "colors" = some Cell.nan ∧
    tableCell (normalizeRecords
        [[("name", Json.str "Asmo"), ("mana_cost", Json.str ""),
          ("colors", Json.arr [Json.str "B", Json.str "R"])],
         [("name", Json.str "Cinder Wall"), ("colors", Json.arr [Json.str "R"]),
          ("card_faces", Json.arr [Json.obj [("name", Json.str "x")]])],
         [("name", Json.str "Reckless Waif")]]) 0 "card_faces" = some Cell.nan ∧
    Cell.nan ≠ Cell.val Json.null ∧
    Cell.nan ≠ Cell.val (Json.str "") := by
  refine ⟨?_, ?_, ?_, ?_⟩
  · exact (missing_field_is_nan_marker
      [[("name", Json.str "Asmo"), ("mana_cost", Json.str ""),
        ("colors", Json.arr [Json.str "B", Json.str "R"])],
       [("name", Json.str "Cinder Wall"), ("colors", Json.arr [Json.str "R"]),
        ("card_faces", Json.arr [Json.obj [("name", Json.str "x")]])],
       [("name", Json.str "Reckless Waif")]] 2 [("name", Json.str "Reckless Waif")]
      "colors" rfl (by decide) rfl).1
  · exact (missing_field_is_nan_marker
      [[("name", Json.str "Asmo"), ("mana_cost", Json.str ""),
        ("colors", Json.arr [Json.str "B", Json.str "R"])],
       [("name", Json.str "Cinder Wall"), ("colors", Json.arr [Json.str "R"]),
        ("card_faces", Json.arr [Json.obj [("name", Json.str "x")]])],
       [("name", Json.str "Reckless Waif")]] 0
      [("name", Json.str "Asmo"), ("mana_cost", Json.str ""),
       ("colors", Json.arr [Json.str "B", Json.str "R"])]
      "card_faces" rfl (by decide) rfl).1
  · exact (missing_field_is_nan_marker
      [[("name", Json.str "Asmo"), ("mana_cost", Json.str ""),
        ("colors", Json.arr [Json.str "B", Json.str "R"])],
       [("name", Json.str "Cinder Wall"), ("colors", Json.arr [Json.str "R"]),
        ("card_faces", Json.arr [Json.obj [("name", Json.str "x")]])],
       [("name", Json.str "Reckless Waif")]] 2 [("name", Json.str "Reckless Waif")]
      "colors" rfl (by decide) rfl).2.1
  · exact (missing_field_is_nan_marker
      [[("name", Json.str "Asmo"), ("mana_cost", Json.str ""),
        ("colors", Json.arr [Json.str "B", Json.str "R"])],
       [("name", Json.str "Cinder Wall"), ("colors", Json.arr [Json.str "R"]),
        ("card_faces", Json.arr [Json.obj [("name", Json.str "x")]])],
       [("name", Json.str "Reckless Waif")]] 2 [("name", Json.str "Reckless Waif")]
      "colors" rfl (by decide) rfl).2.2
